import Mathlib

/-!
Verification of the `ai_assistant_hub` tool-invocation gateway.

The development shallowly embeds the parts of the code that the spec's
testable properties talk about:

* `ai_assistant_hub/mcp/tooling.py` — `ToolSpec.invoke`,
  `_extract_invocation_payload`, `ToolCatalog.register/get/list`;
* `ai_assistant_hub/server/mcp_server.py` — `AIHubMCPServer.invoke`;
* `ai_assistant_hub/utils/http.py` — `ResilientAsyncHTTPClient.request`
  (retry loop, backoff, error translation);
* `ai_assistant_hub/integrations/github.py` — the issue-shaping loop of
  `GitHubIssuesAdapter.list_issues`.

Python values are modelled only as far as the embedded code inspects them
(`isinstance(x, dict)`, `x is None`, `hasattr(x, "model_dump")`,
`dict(x)` convertibility); network traffic is an oracle giving the outcome
of each successive connection attempt; `await asyncio.sleep` and the other
observable steps are recorded in explicit event traces.
-/

namespace AIHub

/-- A Python runtime value, as far as the tooling layer inspects one:
`vnone` is Python `None`; `vdict` is a `dict` (string keys, as used
throughout); `vmodel` is a pydantic `BaseModel` instance whose
`model_dump()` returns the given entries; `vconvertible` is a non-dict,
non-model object that `dict(...)` successfully converts to the given
entries; `vatom` is any other object (opaque). -/
inductive HVal where
  | vnone : HVal
  | vdict (entries : List (String × HVal)) : HVal
  | vmodel (dumped : List (String × HVal)) : HVal
  | vconvertible (entries : List (String × HVal)) : HVal
  | vatom (n : Nat) : HVal

/-- Python `x is None`. -/
def HVal.isNone : HVal → Bool
  | .vnone => true
  | _ => false

/-- The exception classes the embedded code can raise:
`toolExecutionError` is `ai_assistant_hub.utils.errors.ToolExecutionError`,
`validationError` is pydantic's `ValidationError` (raised by
`model_validate`), `valueError` is the builtin `ValueError`, and
`pyException` is any other exception propagating unwrapped. -/
inductive PyErr where
  | toolExecutionError (msg : String)
  | validationError (msg : String)
  | valueError (msg : String)
  | pyException (msg : String)

/-- `schemas/base.py` `ToolInvocationRequest`: tool name, input mapping,
optional context mapping. -/
structure ToolInvocationRequest where
  tool : String
  input : List (String × HVal)
  context : Option (List (String × HVal))

/-- `schemas/base.py` `ToolInvocationResponse`. -/
structure ToolInvocationResponse where
  ok : Bool
  output : List (String × HVal)
  error : Option String

/-- What a tool handler coroutine does on a given call: return a raw
value, raise `ToolExecutionError`, or raise some other exception. -/
inductive HandlerOutcome where
  | success (raw : HVal)
  | toolExecError (msg : String)
  | otherError (msg : String)

/-- `mcp/tooling.py` `ToolSpec`: the fields `invoke` and the binding layer
actually use.  `validateInput` models `input_model.model_validate`
(`Except.error` = pydantic `ValidationError`); `validateOutput` models
`output_model.model_validate(...)` followed by `.model_dump()` on a value
that is not already a `BaseModel`. -/
structure ToolSpec where
  name : String
  description : String
  validateInput : List (String × HVal) → Except String HVal
  handler : HVal → Option (List (String × HVal)) → HandlerOutcome
  validateOutput : HVal → Except String (List (String × HVal))

/-- Lines 154–157 of `tooling.py`: a raw handler result that is already a
`BaseModel` is just dumped; anything else is validated against the output
model (which may raise `ValidationError`) and dumped. -/
def ToolSpec.dumpOrValidate (spec : ToolSpec) (raw : HVal) :
    Except String (List (String × HVal)) :=
  match raw with
  | .vmodel d => .ok d
  | raw => spec.validateOutput raw

/-- Observable steps of one `invoke` call, for stating "the handler is
never called" and "validation happens first". -/
inductive InvokeEvent where
  | inputValidated
  | handlerCalled
deriving DecidableEq

/-- `ToolSpec.invoke` (tooling.py lines 145–159), with its event trace.
`request.input or {}` equals `request.input` in the model (an empty
mapping is already `[]`).  Input validation happens outside the `try`, so
a `ValidationError` propagates; `ToolExecutionError` from the handler is
converted to an `ok=False` response; any other handler exception is
re-raised as a `ToolExecutionError` wrapping its message; output
validation happens after the `try`, so its `ValidationError` also
propagates. -/
def ToolSpec.invoke (spec : ToolSpec) (req : ToolInvocationRequest) :
    Except PyErr ToolInvocationResponse × List InvokeEvent :=
  match spec.validateInput req.input with
  | .error e => (.error (.validationError e), [.inputValidated])
  | .ok payload =>
    match spec.handler payload req.context with
    | .toolExecError msg =>
        (.ok ⟨false, [], some msg⟩, [.inputValidated, .handlerCalled])
    | .otherError msg =>
        (.error (.toolExecutionError msg), [.inputValidated, .handlerCalled])
    | .success raw =>
        match spec.dumpOrValidate raw with
        | .error e =>
            (.error (.validationError e), [.inputValidated, .handlerCalled])
        | .ok out =>
            (.ok ⟨true, out, none⟩, [.inputValidated, .handlerCalled])

/-- First-match association lookup: Python `d.get(k)` on a dict built by
insertions with distinct keys. -/
def lookupStr {α : Type} : List (String × α) → String → Option α
  | [], _ => none
  | (k, v) :: rest, key => if k = key then some v else lookupStr rest key

/-- `mcp/tooling.py` `ToolCatalog`: the `tools` dict, as an
insertion-ordered association list. -/
structure ToolCatalog where
  tools : List (String × ToolSpec)

/-- `ToolCatalog.get`. -/
def ToolCatalog.get (cat : ToolCatalog) (name : String) : Option ToolSpec :=
  lookupStr cat.tools name

/-- `ToolCatalog.list` (`list(self.tools.values())`, insertion order). -/
def ToolCatalog.values (cat : ToolCatalog) : List ToolSpec :=
  cat.tools.map Prod.snd

/-- `ToolCatalog.register` (tooling.py lines 214–217): raises the builtin
`ValueError` if the name is already present, otherwise inserts.  The
result pairs the raised-or-returned outcome with the catalog state after
the call. -/
def ToolCatalog.register (cat : ToolCatalog) (spec : ToolSpec) :
    Except PyErr Unit × ToolCatalog :=
  if (lookupStr cat.tools spec.name).isSome then
    (.error (.valueError ("Tool already registered: " ++ spec.name)), cat)
  else
    (.ok (), ⟨cat.tools ++ [(spec.name, spec)]⟩)

/-- `AIHubMCPServer.invoke` (mcp_server.py lines 63–67): look the tool up
in the catalog; on a miss raise `ToolExecutionError("Unknown tool: ...")`
(a `ToolSpec` dataclass instance is always truthy, so `if not spec` is
exactly the `None` check); otherwise delegate to `ToolSpec.invoke`.  The
trace is empty on the miss path: nothing was validated, no handler ran. -/
def serverInvoke (cat : ToolCatalog) (req : ToolInvocationRequest) :
    Except PyErr ToolInvocationResponse × List InvokeEvent :=
  match cat.get req.tool with
  | none => (.error (.toolExecutionError ("Unknown tool: " ++ req.tool)), [])
  | some spec => spec.invoke req

/-- Lines 194–203 of `tooling.py`, second step: coerce the selected
`arguments` object to a dict.  `None` was already replaced by `{}` (the
`vnone` row mirrors what `dict(None)` would do — `TypeError`, hence
`{"value": None}` — though that row is unreachable after the replacement);
a non-dict with `model_dump` is dumped; a non-dict convertible by
`dict(...)` is converted; anything else becomes `{"value": obj}`. -/
def coerceArguments : HVal → List (String × HVal)
  | .vdict d => d
  | .vmodel d => d
  | .vconvertible d => d
  | .vnone => [("value", .vnone)]
  | .vatom n => [("value", .vatom n)]

/-- `_extract_invocation_payload` (tooling.py lines 162–205).  `args` is
the positional tuple, `kwargs` the keyword dict of the host's call; the
result is the `(arguments, context)` pair the function returns, with
`context = HVal.vnone` playing Python `None` (a `"context"` keyword whose
value is `None` and an absent `"context"` keyword are indistinguishable in
the source, as both leave `context` equal to `None`). -/
def extract_invocation_payload (args : List HVal)
    (kwargs : List (String × HVal)) : List (String × HVal) × HVal :=
  let argumentsA : HVal :=
    match lookupStr kwargs "arguments" with
    | some v => v
    | none =>
      match lookupStr kwargs "input" with
      | some v => v
      | none =>
        match lookupStr kwargs "params" with
        | some v => v
        | none => .vnone
  let contextA : HVal := (lookupStr kwargs "context").getD .vnone
  let (argumentsB, contextB) :=
    match args with
    | [] => (argumentsA, contextA)
    | a0 :: rest =>
      if argumentsA.isNone then
        match a0, rest with
        | .vdict d, [] => (HVal.vdict d, contextA)
        | .vdict d, a1 :: _ => (HVal.vdict d, a1)
        | a0, [] => (HVal.vnone, a0)
        | a0, a1 :: _ =>
          match a1 with
          | .vdict d => (HVal.vdict d, a0)
          | .vmodel d => (HVal.vdict d, a0)
          | a1 => (a1, a0)
      else (argumentsA, contextA)
  let argumentsC := if argumentsB.isNone then HVal.vdict [] else argumentsB
  (coerceArguments argumentsC, contextB)

/-- The body of `mcp_handler` (tooling.py lines 45–52) after payload
extraction: validate the arguments against the input model (a
`ValidationError` propagates), pass the context through only when it is a
dict, run the handler (its exceptions propagate unwrapped here — there is
no `try` in `mcp_handler`), and dump/validate the result. -/
def mcpHandlerCore (spec : ToolSpec) (arguments : List (String × HVal))
    (context : HVal) : Except PyErr (List (String × HVal)) :=
  match spec.validateInput arguments with
  | .error e => .error (.validationError e)
  | .ok payload =>
    let contextPayload : Option (List (String × HVal)) :=
      match context with
      | .vdict d => some d
      | _ => none
    match spec.handler payload contextPayload with
    | .toolExecError msg => .error (.toolExecutionError msg)
    | .otherError msg => .error (.pyException msg)
    | .success raw =>
      match spec.dumpOrValidate raw with
      | .error e => .error (.validationError e)
      | .ok out => .ok out

/-- `mcp_handler` itself: extract the payload from the host call shape,
then run the core. -/
def mcpHandler (spec : ToolSpec) (args : List HVal)
    (kwargs : List (String × HVal)) : Except PyErr (List (String × HVal)) :=
  let (arguments, context) := extract_invocation_payload args kwargs
  mcpHandlerCore spec arguments context

/-- Outcome of one network attempt inside the `try` of
`ResilientAsyncHTTPClient.request` (http.py lines 43–51): `transient` is
`httpx.RequestError`/`httpx.TimeoutException` with `str(exc)`;
`statusError` is `raise_for_status` firing on a received 4xx/5xx response
(carrying status code, reason phrase, `response.text`, and `str(exc)`);
`otherFailure` is any other exception (e.g. a body that fails to parse as
JSON); `success` is a 2xx response whose body parses to the given value. -/
inductive AttemptOutcome where
  | transient (msg : String)
  | statusError (code : Nat) (reason : String) (text : String) (excStr : String)
  | otherFailure (msg : String)
  | success (body : HVal)

/-- `_extract_error_detail` (http.py lines 79–86): `response.text` when
non-empty, else `str(exc)`. -/
def extract_error_detail (text excStr : String) : String :=
  if text = "" then excStr else text

/-- The message of the `ToolExecutionError` raised on an HTTP status
error (http.py lines 54–57). -/
def statusErrorMessage (code : Nat) (reason : String)
    (text : String) (excStr : String) : String :=
  "API request failed: " ++ toString code ++ " " ++ reason ++ ". Details: "
    ++ extract_error_detail text excStr

/-- The message of the `ToolExecutionError` raised after exhausting all
attempts (http.py line 76). -/
def exhaustedMessage (attempts : Nat) (lastError : String) : String :=
  "Request failed after " ++ toString attempts ++ " attempts: " ++ lastError

/-- `ResilientAsyncHTTPClient`: the two constructor fields the retry loop
reads.  Delays are exact rationals; the backoff factors the spec verifies
(`0`, `0.5`, `2`) and the powers of two are all exact in Python floats, so
rational arithmetic is faithful for them. -/
structure ResilientAsyncHTTPClient where
  retries : Nat
  backoff_factor : ℚ

/-- The `__init__` clamping (http.py lines 33–34): `max(retries, 0)` and
`max(backoff_factor, 0)`. -/
def mkClient (retries : Int) (backoff_factor : ℚ) : ResilientAsyncHTTPClient :=
  ⟨(max retries 0).toNat, max backoff_factor 0⟩

/-- Observable steps of one `request` call: an attempt performed with its
0-indexed number, the backoff delay computed for the next attempt (the
value of `sleep_for`, tagged with the attempt it precedes), and an actual
suspension (`await asyncio.sleep`, recorded only when it happens — the
source skips the `await` when `sleep_for` is falsy). -/
inductive HttpEvent where
  | attemptMade (idx : Nat)
  | delayComputed (beforeAttempt : Nat) (d : ℚ)
  | slept (d : ℚ)
deriving DecidableEq

/-- The events of one transient-failure iteration that goes on to retry:
the attempt itself, the computed `sleep_for` for the next attempt, and
the suspension — performed only when `sleep_for` is non-zero
(`if sleep_for:`, http.py line 71). -/
def preEvents (attempt : Nat) (d : ℚ) : List HttpEvent :=
  [.attemptMade attempt, .delayComputed (attempt + 1) d]
    ++ (if d = 0 then [] else [.slept d])

/-- The `while attempt <= self.retries` loop of `request` (http.py lines
40–76), with the network modelled by `net : Nat → AttemptOutcome` giving
the outcome of each successive attempt.  `fuel` bounds the remaining
iterations; started at `retries + 1 - attempt` it never reaches the
(unreachable) zero case, whose value matches the post-loop raise.  On a
transient failure at the last allowed attempt the loop breaks and raises
the exhausted-attempts error with `last_error` set to that failure;
earlier transient failures compute `sleep_for = backoff_factor * 2 **
attempt`, suspend only when it is non-zero, and continue; status errors
and unexpected errors raise immediately without retrying. -/
def requestLoop (c : ResilientAsyncHTTPClient) (net : Nat → AttemptOutcome)
    (attempt : Nat) (lastError : String) (fuel : Nat) :
    Except PyErr HVal × List HttpEvent :=
  match fuel with
  | 0 => (.error (.toolExecutionError (exhaustedMessage (c.retries + 1) lastError)), [])
  | fuel' + 1 =>
    match net attempt with
    | .success body => (.ok body, [.attemptMade attempt])
    | .statusError code reason text excStr =>
        (.error (.toolExecutionError (statusErrorMessage code reason text excStr)),
          [.attemptMade attempt])
    | .otherFailure msg =>
        (.error (.toolExecutionError ("Unexpected HTTP error: " ++ msg)),
          [.attemptMade attempt])
    | .transient msg =>
        if attempt = c.retries then
          (.error (.toolExecutionError (exhaustedMessage (c.retries + 1) msg)),
            [.attemptMade attempt])
        else
          let next := requestLoop c net (attempt + 1) msg fuel'
          (next.1, preEvents attempt (c.backoff_factor * 2 ^ attempt) ++ next.2)

/-- `ResilientAsyncHTTPClient.request`: run the loop from attempt 0. -/
def request (c : ResilientAsyncHTTPClient) (net : Nat → AttemptOutcome) :
    Except PyErr HVal × List HttpEvent :=
  requestLoop c net 0 "" (c.retries + 1)

/-- Number of attempts performed in a trace. -/
def countAttempts (evs : List HttpEvent) : Nat :=
  (evs.filter fun e =>
    match e with
    | .attemptMade _ => true
    | _ => false).length

/-- The `"body"` field of an upstream GitHub issue object: the key may be
absent, present with `None`, or present with a string.  Strings here are
lists of code points, matching Python's character-wise slicing. -/
inductive BodyField where
  | absent
  | pynone
  | text (s : List Char)

/-- `(issue.get("body", "") or "")`: absent and `None` (and the empty
string) all become `""`. -/
def bodyText : BodyField → List Char
  | .absent => []
  | .pynone => []
  | .text s => s

/-- One element of the upstream `/repos/{owner}/{repo}/issues` response,
as far as `GitHubIssuesAdapter.list_issues` reads it.
`pull_request_present` is `"pull_request" in issue`; `labels` holds each
label object's `.get("name")`; `user_login` is
`issue.get("user", {}).get("login")` (absent user and user without login
both read as `None`); `assignees` holds each assignee's `.get("login")`. -/
structure RawIssue where
  pull_request_present : Bool
  number : Option Int
  title : Option String
  state : Option String
  html_url : Option String
  body : BodyField
  created_at : Option String
  updated_at : Option String
  labels : List (Option String)
  user_login : Option String
  assignees : List (Option String)

/-- The dict appended for one kept issue (github.py lines 83–96). -/
structure IssueEntry where
  number : Option Int
  title : Option String
  state : Option String
  url : Option String
  body : List Char
  created_at : Option String
  updated_at : Option String
  labels : List (Option String)
  user : Option String
  assignees : List (Option String)

/-- The shaping of one kept issue: fields copied via `.get`, the body
coalesced to a string and sliced to its first 500 characters. -/
def shapeIssue (i : RawIssue) : IssueEntry :=
  ⟨i.number, i.title, i.state, i.html_url, (bodyText i.body).take 500,
    i.created_at, i.updated_at, i.labels, i.user_login, i.assignees⟩

/-- The shaping loop of `GitHubIssuesAdapter.list_issues` (github.py lines
79–97): skip entries carrying a `"pull_request"` key, shape the rest in
order. -/
def list_issues_shape : List RawIssue → List IssueEntry
  | [] => []
  | i :: rest =>
    if i.pull_request_present then list_issues_shape rest
    else shapeIssue i :: list_issues_shape rest

/-! Helper lemmas about the retry loop. -/

lemma countAttempts_append (a b : List HttpEvent) :
    countAttempts (a ++ b) = countAttempts a + countAttempts b := by
  simp [countAttempts, List.filter_append]

lemma countAttempts_preEvents (attempt : Nat) (d : ℚ) :
    countAttempts (preEvents attempt d) = 1 := by
  by_cases hd : d = 0 <;> simp [preEvents, hd, countAttempts]

lemma delay_mem_preEvents (attempt k : Nat) (d e : ℚ)
    (h : HttpEvent.delayComputed k e ∈ preEvents attempt d) :
    k = attempt + 1 ∧ e = d := by
  by_cases hd : d = 0 <;> simp_all [preEvents, hd]

lemma slept_mem_preEvents (attempt : Nat) (d e : ℚ)
    (h : HttpEvent.slept e ∈ preEvents attempt d) : e = d ∧ d ≠ 0 := by
  by_cases hd : d = 0 <;> simp_all [preEvents, hd]

lemma attempt_mem_preEvents (attempt j : Nat) (d : ℚ)
    (h : HttpEvent.attemptMade j ∈ preEvents attempt d) : j = attempt := by
  by_cases hd : d = 0 <;> simp_all [preEvents, hd]

lemma str_append_ne_empty (s t : String) (h : s.length ≠ 0) : s ++ t ≠ "" := by
  intro heq
  have hl : s.length + t.length = 0 := by
    simpa [String.length_append] using congrArg String.length heq
  omega

lemma exhaustedMessage_ne_empty (n : Nat) (lastError : String) :
    exhaustedMessage n lastError ≠ "" := by
  apply str_append_ne_empty
  intro h
  rw [String.length_append, String.length_append] at h
  have : ("Request failed after " : String).length = 21 := rfl
  omega

lemma statusErrorMessage_ne_empty (code : Nat) (reason text excStr : String) :
    statusErrorMessage code reason text excStr ≠ "" := by
  apply str_append_ne_empty
  intro h
  simp only [String.length_append] at h
  have : ("API request failed: " : String).length = 20 := rfl
  omega

lemma unexpectedMessage_ne_empty (msg : String) :
    ("Unexpected HTTP error: " ++ msg : String) ≠ "" := by
  apply str_append_ne_empty
  intro h
  have : ("Unexpected HTTP error: " : String).length = 23 := rfl
  omega

/-- If every attempt fails transiently, the loop consumes all its fuel and
raises the exhausted-attempts error naming `retries + 1` attempts and the
last attempt's failure. -/
lemma requestLoop_all_transient (c : ResilientAsyncHTTPClient)
    (net : Nat → AttemptOutcome) (m : Nat → String)
    (hm : ∀ i, net i = .transient (m i)) :
    ∀ fuel attempt lastError, 1 ≤ fuel → attempt + fuel = c.retries + 1 →
      (requestLoop c net attempt lastError fuel).1
          = .error (.toolExecutionError
              (exhaustedMessage (c.retries + 1) (m c.retries)))
        ∧ countAttempts (requestLoop c net attempt lastError fuel).2 = fuel := by
  intro fuel
  induction fuel with
  | zero => intro attempt lastError h1 _; omega
  | succ fuel ih =>
    intro attempt lastError _ h2
    by_cases ha : attempt = c.retries
    · have hf : fuel = 0 := by omega
      subst hf
      subst ha
      simp [requestLoop, hm, countAttempts]
    · have h1' : 1 ≤ fuel := by omega
      have h2' : (attempt + 1) + fuel = c.retries + 1 := by omega
      obtain ⟨r1, r2⟩ := ih (attempt + 1) (m attempt) h1' h2'
      constructor
      · simpa [requestLoop, hm attempt, ha] using r1
      · simp [requestLoop, hm attempt, ha, countAttempts_append,
          countAttempts_preEvents, r2]
        omega

/-- If the first `j` attempts fail transiently and attempt `j` succeeds,
the loop returns the parsed body after `j + 1` attempts. -/
lemma requestLoop_success_at (c : ResilientAsyncHTTPClient)
    (net : Nat → AttemptOutcome) (m : Nat → String) (j : Nat) (body : HVal)
    (hj : j ≤ c.retries)
    (hm : ∀ i, i < j → net i = .transient (m i))
    (hs : net j = .success body) :
    ∀ fuel attempt lastError, attempt + fuel = c.retries + 1 → attempt ≤ j →
      (requestLoop c net attempt lastError fuel).1 = .ok body
        ∧ countAttempts (requestLoop c net attempt lastError fuel).2
            = j - attempt + 1 := by
  intro fuel
  induction fuel with
  | zero => intro attempt lastError h1 h2; omega
  | succ fuel ih =>
    intro attempt lastError h1 h2
    by_cases haj : attempt = j
    · subst haj
      simp [requestLoop, hs, countAttempts]
    · have hlt : attempt < j := lt_of_le_of_ne h2 haj
      have hne : attempt ≠ c.retries := by omega
      obtain ⟨r1, r2⟩ := ih (attempt + 1) (m attempt) (by omega) (by omega)
      constructor
      · simpa [requestLoop, hm attempt hlt, hne] using r1
      · simp [requestLoop, hm attempt hlt, hne, countAttempts_append,
          countAttempts_preEvents, r2]
        omega

/-- If the first `j` attempts fail transiently and attempt `j` receives a
4xx/5xx response, the loop raises the status error immediately: exactly
`j + 1` attempts happen, however many retries remain. -/
lemma requestLoop_status_at (c : ResilientAsyncHTTPClient)
    (net : Nat → AttemptOutcome) (m : Nat → String) (j : Nat)
    (code : Nat) (reason text excStr : String)
    (hj : j ≤ c.retries)
    (hm : ∀ i, i < j → net i = .transient (m i))
    (hs : net j = .statusError code reason text excStr) :
    ∀ fuel attempt lastError, attempt + fuel = c.retries + 1 → attempt ≤ j →
      (requestLoop c net attempt lastError fuel).1
          = .error (.toolExecutionError
              (statusErrorMessage code reason text excStr))
        ∧ countAttempts (requestLoop c net attempt lastError fuel).2
            = j - attempt + 1 := by
  intro fuel
  induction fuel with
  | zero => intro attempt lastError h1 h2; omega
  | succ fuel ih =>
    intro attempt lastError h1 h2
    by_cases haj : attempt = j
    · subst haj
      simp [requestLoop, hs, countAttempts]
    · have hlt : attempt < j := lt_of_le_of_ne h2 haj
      have hne : attempt ≠ c.retries := by omega
      obtain ⟨r1, r2⟩ := ih (attempt + 1) (m attempt) (by omega) (by omega)
      constructor
      · simpa [requestLoop, hm attempt hlt, hne] using r1
      · simp [requestLoop, hm attempt hlt, hne, countAttempts_append,
          countAttempts_preEvents, r2]
        omega

/-- Every delay the loop computes is tagged for an attempt `k ≥ 1` and
equals `backoff_factor * 2 ^ (k - 1)`. -/
lemma requestLoop_delay_mem (c : ResilientAsyncHTTPClient)
    (net : Nat → AttemptOutcome) :
    ∀ fuel attempt lastError k d,
      HttpEvent.delayComputed k d ∈ (requestLoop c net attempt lastError fuel).2 →
      1 ≤ k ∧ d = c.backoff_factor * 2 ^ (k - 1) := by
  intro fuel
  induction fuel with
  | zero => intro attempt lastError k d h; simp [requestLoop] at h
  | succ fuel ih =>
    intro attempt lastError k d h
    cases hnet : net attempt with
    | transient msg =>
      simp only [requestLoop, hnet] at h
      by_cases ha : attempt = c.retries
      · simp [ha] at h
      · simp only [if_neg ha, List.mem_append] at h
        rcases h with h | h
        · obtain ⟨hk, hd⟩ := delay_mem_preEvents attempt k _ d h
          subst hk
          simpa using hd
        · exact ih (attempt + 1) msg k d h
    | statusError code reason text excStr => simp [requestLoop, hnet] at h
    | otherFailure msg => simp [requestLoop, hnet] at h
    | success body => simp [requestLoop, hnet] at h

/-- Every suspension the loop performs has a non-zero duration: a computed
delay of `0` is skipped. -/
lemma requestLoop_slept_mem (c : ResilientAsyncHTTPClient)
    (net : Nat → AttemptOutcome) :
    ∀ fuel attempt lastError d,
      HttpEvent.slept d ∈ (requestLoop c net attempt lastError fuel).2 →
      d ≠ 0 := by
  intro fuel
  induction fuel with
  | zero => intro attempt lastError d h; simp [requestLoop] at h
  | succ fuel ih =>
    intro attempt lastError d h
    cases hnet : net attempt with
    | transient msg =>
      simp only [requestLoop, hnet] at h
      by_cases ha : attempt = c.retries
      · simp [ha] at h
      · simp only [if_neg ha, List.mem_append] at h
        rcases h with h | h
        · obtain ⟨hd, hne⟩ := slept_mem_preEvents attempt _ d h
          simpa [hd] using hne
        · exact ih (attempt + 1) msg d h
    | statusError code reason text excStr => simp [requestLoop, hnet] at h
    | otherFailure msg => simp [requestLoop, hnet] at h
    | success body => simp [requestLoop, hnet] at h

/-- Any attempt the loop performs beyond the one it starts at is preceded
only by transient failures: nothing else is ever retried. -/
lemma requestLoop_attempt_mem (c : ResilientAsyncHTTPClient)
    (net : Nat → AttemptOutcome) :
    ∀ fuel attempt lastError j,
      HttpEvent.attemptMade j ∈ (requestLoop c net attempt lastError fuel).2 →
      attempt ≤ j ∧ ∀ i, attempt ≤ i → i < j → ∃ msg, net i = .transient msg := by
  intro fuel
  induction fuel with
  | zero => intro attempt lastError j h; simp [requestLoop] at h
  | succ fuel ih =>
    intro attempt lastError j h
    cases hnet : net attempt with
    | transient msg =>
      simp only [requestLoop, hnet] at h
      by_cases ha : attempt = c.retries
      · simp [ha] at h
        exact ⟨by omega, fun i h1 h2 => absurd h2 (by omega)⟩
      · simp only [if_neg ha, List.mem_append] at h
        rcases h with h | h
        · have hj := attempt_mem_preEvents attempt j _ h
          exact ⟨by omega, fun i h1 h2 => absurd h2 (by omega)⟩
        · obtain ⟨hle, htr⟩ := ih (attempt + 1) msg j h
          refine ⟨by omega, fun i h1 h2 => ?_⟩
          by_cases hia : i = attempt
          · exact ⟨msg, by rw [hia, hnet]⟩
          · exact htr i (by omega) h2
    | statusError code reason text excStr =>
      simp [requestLoop, hnet] at h
      exact ⟨by omega, fun i h1 h2 => absurd h2 (by omega)⟩
    | otherFailure msg =>
      simp [requestLoop, hnet] at h
      exact ⟨by omega, fun i h1 h2 => absurd h2 (by omega)⟩
    | success body =>
      simp [requestLoop, hnet] at h
      exact ⟨by omega, fun i h1 h2 => absurd h2 (by omega)⟩

/-- The loop either returns a parsed body or raises a `ToolExecutionError`
with a non-empty message; no other exception kind escapes. -/
lemma requestLoop_result_shape (c : ResilientAsyncHTTPClient)
    (net : Nat → AttemptOutcome) :
    ∀ fuel attempt lastError,
      (∃ body, (requestLoop c net attempt lastError fuel).1 = .ok body)
      ∨ (∃ msg, (requestLoop c net attempt lastError fuel).1
            = .error (.toolExecutionError msg) ∧ msg ≠ "") := by
  intro fuel
  induction fuel with
  | zero =>
    intro attempt lastError
    exact .inr ⟨_, rfl, exhaustedMessage_ne_empty _ _⟩
  | succ fuel ih =>
    intro attempt lastError
    cases hnet : net attempt with
    | transient msg =>
      by_cases ha : attempt = c.retries
      · subst ha
        have heq : (requestLoop c net c.retries lastError (fuel + 1)).1
            = .error (.toolExecutionError (exhaustedMessage (c.retries + 1) msg)) := by
          simp [requestLoop, hnet]
        exact .inr ⟨_, heq, exhaustedMessage_ne_empty _ _⟩
      · rcases ih (attempt + 1) msg with ⟨body, hb⟩ | ⟨m, hm, hne⟩
        · exact .inl ⟨body, by simpa [requestLoop, hnet, ha] using hb⟩
        · exact .inr ⟨m, by simpa [requestLoop, hnet, ha] using hm, hne⟩
    | statusError code reason text excStr =>
      have heq : (requestLoop c net attempt lastError (fuel + 1)).1
          = .error (.toolExecutionError (statusErrorMessage code reason text excStr)) := by
        simp [requestLoop, hnet]
      exact .inr ⟨_, heq, statusErrorMessage_ne_empty code reason text excStr⟩
    | otherFailure msg =>
      have heq : (requestLoop c net attempt lastError (fuel + 1)).1
          = .error (.toolExecutionError ("Unexpected HTTP error: " ++ msg)) := by
        simp [requestLoop, hnet]
      exact .inr ⟨_, heq, unexpectedMessage_ne_empty msg⟩
    | success body => exact .inl ⟨body, by simp [requestLoop, hnet]⟩

lemma list_issues_shape_eq (l : List RawIssue) :
    list_issues_shape l
      = (l.filter fun i => !i.pull_request_present).map shapeIssue := by
  induction l with
  | nil => rfl
  | cons i rest ih =>
    by_cases hp : i.pull_request_present <;>
      simp [list_issues_shape, List.filter_cons, hp, ih]

/-! The claims. -/

/-- Claim C1: for every transport configured with `retries = r`, if every
attempt fails transiently then `request` performs exactly `r + 1` attempts
and raises a `ToolExecutionError` whose message reports exactly `r + 1`
attempts and the last underlying cause; if the first `r` attempts fail
transiently and attempt `r + 1` succeeds, `request` returns the parsed
response body. -/
theorem C1_retry_semantics (c : ResilientAsyncHTTPClient)
    (net : Nat → AttemptOutcome) (m : Nat → String) (body : HVal) :
    ((∀ i, net i = .transient (m i)) →
      (request c net).1
          = .error (.toolExecutionError
              (exhaustedMessage (c.retries + 1) (m c.retries)))
        ∧ countAttempts (request c net).2 = c.retries + 1)
    ∧ ((∀ i, i < c.retries → net i = .transient (m i)) →
        net c.retries = .success body →
        (request c net).1 = .ok body
          ∧ countAttempts (request c net).2 = c.retries + 1) := by
  constructor
  · intro hm
    exact requestLoop_all_transient c net m hm (c.retries + 1) 0 ""
      (by omega) (by omega)
  · intro hm hs
    have h := requestLoop_success_at c net m c.retries body (le_refl _) hm hs
      (c.retries + 1) 0 "" (by omega) (by omega)
    simpa using h

theorem C1_retry_semantics_witness :
    (request (⟨2, 1/2⟩ : ResilientAsyncHTTPClient)
        (fun _ => AttemptOutcome.transient "boom")).1
      = .error (.toolExecutionError "Request failed after 3 attempts: boom")
    ∧ (request (⟨2, 1/2⟩ : ResilientAsyncHTTPClient)
        (fun i => if i < 2 then AttemptOutcome.transient "boom"
                  else .success (.vatom 7))).1
      = .ok (.vatom 7) := by
  constructor
  · exact ((C1_retry_semantics ⟨2, 1/2⟩ _ (fun _ => "boom") (.vatom 0)).1
      (fun i => rfl)).1
  · exact ((C1_retry_semantics ⟨2, 1/2⟩ _ (fun _ => "boom") (.vatom 7)).2
      (fun i hi => by simp [hi]) (by norm_num)).1

/-- Claim C2: for every registered tool and every input passing the tool's
input schema, a handler raising `ToolExecutionError("X")` yields a normal
`InvocationResponse` with `ok = false`, empty output, and `error = "X"`:
the error is converted to a response, not propagated as an exception. -/
theorem C2_tool_error_becomes_response (cat : ToolCatalog)
    (req : ToolInvocationRequest) (spec : ToolSpec) (payload : HVal)
    (x : String)
    (hget : cat.get req.tool = some spec)
    (hval : spec.validateInput req.input = .ok payload)
    (hrun : spec.handler payload req.context = .toolExecError x) :
    serverInvoke cat req
      = (.ok ⟨false, [], some x⟩, [.inputValidated, .handlerCalled]) := by
  simp [serverInvoke, hget, ToolSpec.invoke, hval, hrun]

theorem C2_tool_error_becomes_response_witness :
    serverInvoke
        ⟨[("echo", ⟨"echo", "", fun d => .ok (.vdict d),
            fun _ _ => HandlerOutcome.toolExecError "X", fun _ => .ok []⟩)]⟩
        ⟨"echo", [("a", .vatom 1)], none⟩
      = (.ok ⟨false, [], some "X"⟩, [.inputValidated, .handlerCalled]) :=
  C2_tool_error_becomes_response _ _ _ (.vdict [("a", .vatom 1)]) "X"
    rfl rfl rfl

/-- Claim C3: invoking a tool name absent from the catalog raises the
unknown-tool error (an exception, not an `ok = false` response) before any
input validation occurs, and no handler is ever called: the event trace of
the call is empty. -/
theorem C3_unknown_tool_raises (cat : ToolCatalog)
    (req : ToolInvocationRequest) (h : cat.get req.tool = none) :
    serverInvoke cat req
        = (.error (.toolExecutionError ("Unknown tool: " ++ req.tool)), [])
      ∧ InvokeEvent.inputValidated ∉ (serverInvoke cat req).2
      ∧ InvokeEvent.handlerCalled ∉ (serverInvoke cat req).2 := by
  refine ⟨?_, ?_, ?_⟩ <;> simp [serverInvoke, h]

theorem C3_unknown_tool_raises_witness :
    serverInvoke ⟨[]⟩ ⟨"nope", [], none⟩
        = (.error (.toolExecutionError "Unknown tool: nope"), [])
      ∧ InvokeEvent.inputValidated ∉ (serverInvoke ⟨[]⟩ ⟨"nope", [], none⟩).2
      ∧ InvokeEvent.handlerCalled ∉ (serverInvoke ⟨[]⟩ ⟨"nope", [], none⟩).2 :=
  C3_unknown_tool_raises ⟨[]⟩ ⟨"nope", [], none⟩ rfl

/-- Claim C4: for every registered tool, an invocation whose input fails
the tool's input schema terminates with the propagated validation error
and the handler is never called. -/
theorem C4_invalid_input_blocks_handler (cat : ToolCatalog)
    (req : ToolInvocationRequest) (spec : ToolSpec) (e : String)
    (hget : cat.get req.tool = some spec)
    (hval : spec.validateInput req.input = .error e) :
    (serverInvoke cat req).1 = .error (.validationError e)
      ∧ InvokeEvent.handlerCalled ∉ (serverInvoke cat req).2 := by
  constructor <;> simp [serverInvoke, hget, ToolSpec.invoke, hval]

theorem C4_invalid_input_blocks_handler_witness :
    (serverInvoke
        ⟨[("strict", ⟨"strict", "", fun _ => .error "bad input",
            fun _ _ => HandlerOutcome.success .vnone, fun _ => .ok []⟩)]⟩
        ⟨"strict", [("a", .vatom 1)], none⟩).1
      = .error (.validationError "bad input")
    ∧ InvokeEvent.handlerCalled ∉
        (serverInvoke
          ⟨[("strict", ⟨"strict", "", fun _ => .error "bad input",
              fun _ _ => HandlerOutcome.success .vnone, fun _ => .ok []⟩)]⟩
          ⟨"strict", [("a", .vatom 1)], none⟩).2 :=
  C4_invalid_input_blocks_handler _ _ _ "bad input" rfl rfl

/-- Claim C5: registering a contract whose name is already in the catalog
raises `ValueError` (the code's duplicate-tool error) and leaves the
catalog unchanged — same keys, same contracts. -/
theorem C5_duplicate_register_rejected (cat : ToolCatalog) (spec : ToolSpec)
    (h : (cat.get spec.name).isSome = true) :
    cat.register spec
      = (.error (.valueError ("Tool already registered: " ++ spec.name)),
         cat) := by
  have h' : (lookupStr cat.tools spec.name).isSome = true := h
  simp [ToolCatalog.register, h']

theorem C5_duplicate_register_rejected_witness :
    ToolCatalog.register
        ⟨[("echo", ⟨"echo", "old", fun d => .ok (.vdict d),
            fun _ _ => HandlerOutcome.success .vnone, fun _ => .ok []⟩)]⟩
        ⟨"echo", "new", fun d => .ok (.vdict d),
          fun _ _ => HandlerOutcome.success .vnone, fun _ => .ok []⟩
      = (.error (.valueError "Tool already registered: echo"),
         ⟨[("echo", ⟨"echo", "old", fun d => .ok (.vdict d),
             fun _ _ => HandlerOutcome.success .vnone, fun _ => .ok []⟩)]⟩) :=
  C5_duplicate_register_rejected _ _ rfl

/-- Claim C6: every backoff delay the loop computes is tagged for a retry
attempt `k ≥ 1` (so no delay precedes the first attempt) and equals
`backoff_factor * 2 ^ (k - 1)`; every actual suspension has a non-zero
duration (a computed delay of `0` suspends nothing); and the concrete
schedules for backoff factors `0`, `1/2` and `2` at `k ∈ {1, 2, 3}`,
exhibited on a client with three retries and persistent transient
failures. -/
theorem C6_backoff_schedule :
    (∀ (c : ResilientAsyncHTTPClient) (net : Nat → AttemptOutcome)
        (k : Nat) (d : ℚ),
        HttpEvent.delayComputed k d ∈ (request c net).2 →
        1 ≤ k ∧ d = c.backoff_factor * 2 ^ (k - 1))
    ∧ (∀ (c : ResilientAsyncHTTPClient) (net : Nat → AttemptOutcome) (d : ℚ),
        HttpEvent.slept d ∈ (request c net).2 → d ≠ 0)
    ∧ (request (⟨3, 0⟩ : ResilientAsyncHTTPClient)
          (fun _ => AttemptOutcome.transient "t")).2
        = [.attemptMade 0, .delayComputed 1 0, .attemptMade 1,
           .delayComputed 2 0, .attemptMade 2, .delayComputed 3 0,
           .attemptMade 3]
    ∧ (request (⟨3, 1/2⟩ : ResilientAsyncHTTPClient)
          (fun _ => AttemptOutcome.transient "t")).2
        = [.attemptMade 0, .delayComputed 1 (1/2), .slept (1/2),
           .attemptMade 1, .delayComputed 2 1, .slept 1,
           .attemptMade 2, .delayComputed 3 2, .slept 2, .attemptMade 3]
    ∧ (request (⟨3, 2⟩ : ResilientAsyncHTTPClient)
          (fun _ => AttemptOutcome.transient "t")).2
        = [.attemptMade 0, .delayComputed 1 2, .slept 2,
           .attemptMade 1, .delayComputed 2 4, .slept 4,
           .attemptMade 2, .delayComputed 3 8, .slept 8, .attemptMade 3] := by
  refine ⟨?_, ?_, ?_, ?_, ?_⟩
  · intro c net k d h
    exact requestLoop_delay_mem c net (c.retries + 1) 0 "" k d h
  · intro c net d h
    exact requestLoop_slept_mem c net (c.retries + 1) 0 "" d h
  · norm_num [request, requestLoop, preEvents]
  · norm_num [request, requestLoop, preEvents]
  · norm_num [request, requestLoop, preEvents]

theorem C6_backoff_schedule_witness :
    (1 ≤ 2
      ∧ (1 : ℚ) = (⟨3, 1/2⟩ : ResilientAsyncHTTPClient).backoff_factor
          * 2 ^ (2 - 1))
    ∧ ((1 : ℚ)/2) ≠ 0 := by
  have h := C6_backoff_schedule
  have hmem : HttpEvent.delayComputed 2 1 ∈
      (request (⟨3, 1/2⟩ : ResilientAsyncHTTPClient)
        (fun _ => AttemptOutcome.transient "t")).2 := by
    rw [h.2.2.2.1]; simp
  have hslept : HttpEvent.slept (1/2) ∈
      (request (⟨3, 1/2⟩ : ResilientAsyncHTTPClient)
        (fun _ => AttemptOutcome.transient "t")).2 := by
    rw [h.2.2.2.1]; simp
  exact ⟨h.1 _ _ 2 1 hmem, h.2.1 _ _ (1/2) hslept⟩

/-- Claim C7: a received 4xx/5xx response is terminal: when the first `j`
attempts fail transiently and attempt `j` receives an HTTP status error,
`request` raises that error immediately after exactly `j + 1` attempts,
however many retries remain; and conversely any performed retry (an
attempt with index `i + 1`) was preceded by a transient failure at `i` —
only transient failures are ever retried. -/
theorem C7_status_error_terminal :
    (∀ (c : ResilientAsyncHTTPClient) (net : Nat → AttemptOutcome)
        (m : Nat → String) (j code : Nat) (reason text excStr : String),
        (∀ i, i < j → net i = .transient (m i)) → j ≤ c.retries →
        net j = .statusError code reason text excStr →
        (request c net).1
            = .error (.toolExecutionError
                (statusErrorMessage code reason text excStr))
          ∧ countAttempts (request c net).2 = j + 1)
    ∧ (∀ (c : ResilientAsyncHTTPClient) (net : Nat → AttemptOutcome) (i : Nat),
        HttpEvent.attemptMade (i + 1) ∈ (request c net).2 →
        ∃ msg, net i = .transient msg) := by
  constructor
  · intro c net m j code reason text excStr hm hj hs
    have h := requestLoop_status_at c net m j code reason text excStr hj hm hs
      (c.retries + 1) 0 "" (by omega) (by omega)
    simpa using h
  · intro c net i h
    obtain ⟨-, htr⟩ := requestLoop_attempt_mem c net (c.retries + 1) 0 "" (i + 1) h
    exact htr i (by omega) (by omega)

theorem C7_status_error_terminal_witness :
    ((request (⟨5, 0⟩ : ResilientAsyncHTTPClient)
        (fun i => if i = 0 then AttemptOutcome.transient "t"
                  else .statusError 404 "Not Found" "" "e")).1
      = .error (.toolExecutionError
          "API request failed: 404 Not Found. Details: e")
      ∧ countAttempts
          (request (⟨5, 0⟩ : ResilientAsyncHTTPClient)
            (fun i => if i = 0 then AttemptOutcome.transient "t"
                      else .statusError 404 "Not Found" "" "e")).2 = 2)
    ∧ ∃ msg,
        (fun i => if i = 0 then AttemptOutcome.transient "t"
                  else AttemptOutcome.statusError 404 "Not Found" "" "e") 0
          = AttemptOutcome.transient msg := by
  have h1 := C7_status_error_terminal.1 ⟨5, 0⟩
    (fun i => if i = 0 then AttemptOutcome.transient "t"
              else .statusError 404 "Not Found" "" "e")
    (fun _ => "t") 1 404 "Not Found" "" "e"
    (fun i hi => by simp [Nat.lt_one_iff.mp hi]) (by norm_num) rfl
  refine ⟨h1, C7_status_error_terminal.2 ⟨5, 0⟩
    (fun i => if i = 0 then AttemptOutcome.transient "t"
              else .statusError 404 "Not Found" "" "e") 0 ?_⟩
  norm_num [request, requestLoop, preEvents]

/-- Claim C8: for every transport, method/path/options (absorbed into the
network oracle) the `request` operation either resolves to the parsed
response body or fails with a `ToolExecutionError` carrying a non-empty,
human-readable message; no other exception kind escapes the transport
layer. -/
theorem C8_transport_error_kind (c : ResilientAsyncHTTPClient)
    (net : Nat → AttemptOutcome) :
    (∃ body, (request c net).1 = .ok body)
    ∨ (∃ msg, (request c net).1 = .error (.toolExecutionError msg)
         ∧ msg ≠ "") :=
  requestLoop_result_shape c net (c.retries + 1) 0 ""

/-- Claim C9: the binding layer's payload normalization recognises the
host call shapes — keyword `"arguments"`, `"input"`, `"params"` (in that
precedence) with an optional `"context"` keyword, and a positional dict
(with an optional second positional as context) — and extracts a single
`(arguments, optional context)` pair in which the arguments are always a
key/value mapping; `mcp_handler` performs this extraction before
input-schema validation, so a validation failure is decided on the
extracted arguments. -/
theorem C9_payload_normalization (spec : ToolSpec) (args : List HVal)
    (kwargs : List (String × HVal)) :
    (∀ v, lookupStr kwargs "arguments" = some v → v.isNone = false →
        extract_invocation_payload args kwargs
          = (coerceArguments v, (lookupStr kwargs "context").getD .vnone))
    ∧ (∀ v, lookupStr kwargs "arguments" = none →
        lookupStr kwargs "input" = some v → v.isNone = false →
        extract_invocation_payload args kwargs
          = (coerceArguments v, (lookupStr kwargs "context").getD .vnone))
    ∧ (∀ v, lookupStr kwargs "arguments" = none →
        lookupStr kwargs "input" = none →
        lookupStr kwargs "params" = some v → v.isNone = false →
        extract_invocation_payload args kwargs
          = (coerceArguments v, (lookupStr kwargs "context").getD .vnone))
    ∧ (∀ d rest, lookupStr kwargs "arguments" = none →
        lookupStr kwargs "input" = none →
        lookupStr kwargs "params" = none →
        args = .vdict d :: rest →
        extract_invocation_payload args kwargs
          = (d, match rest with
                | [] => (lookupStr kwargs "context").getD .vnone
                | a1 :: _ => a1))
    ∧ mcpHandler spec args kwargs
        = mcpHandlerCore spec (extract_invocation_payload args kwargs).1
            (extract_invocation_payload args kwargs).2
    ∧ (∀ e, spec.validateInput (extract_invocation_payload args kwargs).1
          = .error e →
        mcpHandler spec args kwargs = .error (.validationError e)) := by
  refine ⟨?_, ?_, ?_, ?_, ?_, ?_⟩
  · intro v hv hvn
    cases args with
    | nil => simp [extract_invocation_payload, hv, hvn]
    | cons a0 rest => simp [extract_invocation_payload, hv, hvn]
  · intro v ha hv hvn
    cases args with
    | nil => simp [extract_invocation_payload, ha, hv, hvn]
    | cons a0 rest => simp [extract_invocation_payload, ha, hv, hvn]
  · intro v ha hi hv hvn
    cases args with
    | nil => simp [extract_invocation_payload, ha, hi, hv, hvn]
    | cons a0 rest => simp [extract_invocation_payload, ha, hi, hv, hvn]
  · intro d rest ha hi hp harg
    subst harg
    cases rest with
    | nil =>
      simp [extract_invocation_payload, ha, hi, hp, HVal.isNone,
        coerceArguments]
    | cons a1 rest' =>
      simp [extract_invocation_payload, ha, hi, hp, HVal.isNone,
        coerceArguments]
  · rcases hext : extract_invocation_payload args kwargs with ⟨a, ctx⟩
    simp [mcpHandler, hext]
  · intro e he
    rcases hext : extract_invocation_payload args kwargs with ⟨a, ctx⟩
    rw [hext] at he
    simp only [] at he
    simp [mcpHandler, hext, mcpHandlerCore, he]

theorem C9_payload_normalization_witness :
    extract_invocation_payload [.vatom 9]
        [("arguments", .vdict [("a", .vatom 1)]), ("context", .vdict [])]
      = ([("a", .vatom 1)], .vdict []) :=
  (C9_payload_normalization
      ⟨"t", "", fun d => .ok (.vdict d),
        fun _ _ => HandlerOutcome.success .vnone, fun _ => .ok []⟩
      [.vatom 9]
      [("arguments", .vdict [("a", .vatom 1)]), ("context", .vdict [])]).1
    (.vdict [("a", .vatom 1)]) rfl rfl

/-- Claim C10: every issue entry produced by the GitHub issues adapter has
a body of at most 500 characters (longer upstream bodies are truncated,
absent bodies become the empty string), and the returned list consists
exactly of the shaped non-pull-request entries — upstream entries marked
as pull requests are excluded. -/
theorem C10_issue_shaping (resp : List RawIssue) :
    (∀ e ∈ list_issues_shape resp, e.body.length ≤ 500)
    ∧ list_issues_shape resp
        = (resp.filter fun i => !i.pull_request_present).map shapeIssue
    ∧ (∀ i ∈ resp, i.body = BodyField.absent →
        i.pull_request_present = false →
        (shapeIssue i).body = [] ∧ shapeIssue i ∈ list_issues_shape resp) := by
  refine ⟨?_, list_issues_shape_eq resp, ?_⟩
  · intro e he
    rw [list_issues_shape_eq] at he
    obtain ⟨i, -, rfl⟩ := List.mem_map.mp he
    simp [shapeIssue]
  · intro i hi hb hpr
    constructor
    · simp [shapeIssue, hb, bodyText]
    · rw [list_issues_shape_eq]
      exact List.mem_map_of_mem _ (List.mem_filter.mpr ⟨hi, by simp [hpr]⟩)

theorem C10_issue_shaping_witness :
    (shapeIssue ⟨false, none, none, none, none, .absent, none, none, [],
        none, []⟩).body = []
    ∧ shapeIssue
        (⟨false, none, none, none, none, .absent, none, none, [],
          none, []⟩ : RawIssue)
      ∈ list_issues_shape
          [⟨true, none, none, none, none, .pynone, none, none, [], none, []⟩,
           ⟨false, none, none, none, none, .absent, none, none, [], none, []⟩] :=
  (C10_issue_shaping
      [⟨true, none, none, none, none, .pynone, none, none, [], none, []⟩,
       ⟨false, none, none, none, none, .absent, none, none, [], none, []⟩]).2.2
    ⟨false, none, none, none, none, .absent, none, none, [], none, []⟩
    (by simp) rfl rfl

end AIHub
